import Mathlib

/-!
Verification development for the sales lifecycle service of the
Ejercicio_Final-Taller_Go repository.

The Go sources embedded here are:
* `internal/sales/storage.go` — the in-memory `LocalStorage` repository
  (`Set`, `Read`, `GetAll`) over a `map[string]*Sale`;
* the sales `Service` (`CreateSale`, `validateUser`, `getRandomStatus`,
  `UpdateSaleStatus`);
* `SearchSale`, whose source file is absent from the repository snapshot
  (only its tests survive), is modelled from the specification.

Modelling conventions:
* `float64` amounts become `Rat` (the service only compares against zero
  and adds amounts);
* `time.Time` becomes `Nat`; each call that invokes `time.Now()` receives
  the current instant as an explicit `now` parameter;
* `uuid.NewString()` becomes an explicit `newID` parameter;
* `rand.Intn 3` inside `getRandomStatus` becomes an explicit `Fin 3`
  oracle parameter;
* the external user HTTP API becomes a function
  `UserEnv : String → UserAPIResponse` giving, per user id, either a
  transport failure or a status code;
* Go errors become the inductive `SalesError` / `UserErr`; a function
  returning `(T, error)` becomes `Except SalesError T` (paired with the
  post-state for state-mutating operations, since the Go service mutates
  its storage in place and returns it unchanged on error paths).

The primary model uses value semantics for the stored records; a second,
pointer-accurate model of the repository (`PtrStorage` plus an explicit
heap) appears further down to settle the aliasing behaviour of
`LocalStorage.Read`, which returns the stored `*Sale` pointer itself.
-/

/-- The `Sale` record (fields as used by the service and its tests). -/
structure Sale where
  id : String
  userId : String
  amount : Rat
  status : String
  createdAt : Nat
  updatedAt : Nat
  version : Nat
deriving DecidableEq

/-- Errors of the sales package: the sentinel errors declared in the Go
source plus the distinct `fmt.Errorf` failures produced by the service.
`validationFailed` wraps a user-API error, `saveFailed` wraps the storage
error returned by `Set` inside `CreateSale`. -/
inductive UserErr where
  | requestError
  | unexpectedStatus (code : Nat)
deriving DecidableEq

inductive SalesError where
  | errNotFound
  | errEmptyID
  | invalidAmount
  | errInvalidTransition
  | errInvalidStatus
  | userNotFound (userID : String)
  | validationFailed (e : UserErr)
  | saveFailed (e : SalesError)
deriving DecidableEq

/-- In-memory sales store: a `map[string]*Sale`, value-semantics view.
The association list holds at most one binding per key, maintained by
`setKey`. -/
structure LocalStorage where
  m : List (String × Sale)
deriving DecidableEq

/-- Fresh empty store (`NewLocalStorage`). -/
def NewLocalStorage : LocalStorage := ⟨[]⟩

/-- Map lookup. -/
def lookupKey : List (String × Sale) → String → Option Sale
  | [], _ => none
  | (k', v) :: rest, k => if k' = k then some v else lookupKey rest k

/-- Map insert-or-replace (`l.m[sale.ID] = sale`). -/
def setKey : List (String × Sale) → String → Sale → List (String × Sale)
  | [], k, v => [(k, v)]
  | (k', v') :: rest, k, v =>
      if k' = k then (k, v) :: rest else (k', v') :: setKey rest k v

/-- `LocalStorage.Set`: rejects an empty id with `ErrEmptyID`, otherwise
stores the sale under its id. -/
def LocalStorage.Set (l : LocalStorage) (sale : Sale) :
    Except SalesError LocalStorage :=
  if sale.id = "" then .error .errEmptyID
  else .ok ⟨setKey l.m sale.id sale⟩

/-- `LocalStorage.Read`: returns the sale stored under `id`, or
`ErrNotFound`. -/
def LocalStorage.Read (l : LocalStorage) (id : String) :
    Except SalesError Sale :=
  match lookupKey l.m id with
  | some s => .ok s
  | none => .error .errNotFound

/-- `LocalStorage.GetAll`: every stored record (the Go version also
returns an always-`nil` error, elided here). -/
def LocalStorage.GetAll (l : LocalStorage) : List Sale :=
  l.m.map (·.2)

/-- Response of the external user API for one request: either a transport
failure of `http.Get`, or a reply with the given status code. -/
inductive UserAPIResponse where
  | networkError
  | success (statusCode : Nat)
deriving DecidableEq

/-- Behaviour of the external user system: the response it gives to the
existence lookup for each user id. -/
abbrev UserEnv := String → UserAPIResponse

/-- `Service.validateUser`: `(true, nil)` on HTTP 200, `(false, nil)` on
HTTP 404, `(false, error)` on a transport failure or any other status. -/
def validateUser (env : UserEnv) (userID : String) : Bool × Option UserErr :=
  match env userID with
  | .networkError => (false, some .requestError)
  | .success code =>
      if code = 200 then (true, none)
      else if code = 404 then (false, none)
      else (false, some (.unexpectedStatus code))

/-- The three sale statuses, in the order of the `statuses` slice inside
`getRandomStatus`. -/
def statuses : List String := ["pending", "approved", "rejected"]

/-- `getRandomStatus`: picks `statuses[randomIndex]`; the random draw
`rand.Intn 3` is passed in as the oracle `randomIndex`. -/
def getRandomStatus (randomIndex : Fin 3) : String :=
  statuses.get ⟨randomIndex.val, by simp [statuses]⟩

/-- `Service.CreateSale`. Returns the Go result (`*Sale, error` as an
`Except`) together with the post-call storage; every error path leaves
the storage exactly as received. -/
def CreateSale (env : UserEnv) (st : LocalStorage) (userID : String)
    (amount : Rat) (newID : String) (randomIndex : Fin 3) (now : Nat) :
    Except SalesError Sale × LocalStorage :=
  if amount ≤ 0 then (.error .invalidAmount, st)
  else
    match validateUser env userID with
    | (_, some e) => (.error (.validationFailed e), st)
    | (false, none) => (.error (.userNotFound userID), st)
    | (true, none) =>
        let sale : Sale :=
          { id := newID, userId := userID, amount := amount,
            status := getRandomStatus randomIndex,
            createdAt := now, updatedAt := now, version := 1 }
        match st.Set sale with
        | .error e => (.error (.saveFailed e), st)
        | .ok st' => (.ok sale, st')

/-- `Service.UpdateSaleStatus`. The receiver carries the user-API
environment (`s.userAPIURL`), so `env` is a parameter here as in every
service method, but the method body never consults it. Error paths
return the storage unchanged; the Go `Read` error is collapsed to
`ErrNotFound` exactly as in the source. -/
def UpdateSaleStatus (env : UserEnv) (st : LocalStorage)
    (saleID newStatus : String) (now : Nat) :
    Except SalesError Sale × LocalStorage :=
  match st.Read saleID with
  | .error _ => (.error .errNotFound, st)
  | .ok sale =>
      if newStatus ≠ "approved" ∧ newStatus ≠ "rejected" then
        (.error .errInvalidStatus, st)
      else if sale.status ≠ "pending" then
        (.error .errInvalidTransition, st)
      else
        let sale' : Sale :=
          { sale with status := newStatus, updatedAt := now,
                      version := sale.version + 1 }
        match st.Set sale' with
        | .error e => (.error e, st)
        | .ok st' => (.ok sale', st')

/-- Aggregation record returned by `SearchSale` (field names from the
tests' `SalesMetadata`). -/
structure SalesMetadata where
  quantity : Nat
  approved : Nat
  rejected : Nat
  pending : Nat
  totalAmount : Rat
deriving DecidableEq

/-- Modelled from the spec: the aggregation `SearchSale` computes over
the matched set only — `quantity` = count, per-status counts within the
matched set, `totalAmount` = sum of `amount` within the matched set. -/
def computeMetadata (l : List Sale) : SalesMetadata :=
  { quantity := l.length,
    approved := (l.filter (fun s => s.status == "approved")).length,
    rejected := (l.filter (fun s => s.status == "rejected")).length,
    pending := (l.filter (fun s => s.status == "pending")).length,
    totalAmount := (l.map (·.amount)).sum }

/-- Modelled from the spec: `Service.SearchSale` is absent from the
repository snapshot (only `service_test.go` exercises it). Following
§4.3 of the spec: (1) `statusFilter` must be empty or one of the three
statuses, else `InvalidStatusValue`; (2) the user existence check is
invoked with the same propagation rule as creation; (3) all records are
scanned and those matching `userId` — and `status`, when a filter was
given — are kept; (4) the aggregation is computed over the matched set
only; (5) the matched list and aggregation are returned, an empty match
being a success. `SearchSale` performs no write. -/
def SearchSale (env : UserEnv) (st : LocalStorage)
    (userID statusFilter : String) :
    Except SalesError (List Sale × SalesMetadata) :=
  if statusFilter ≠ "" ∧ statusFilter ∉ statuses then
    .error .errInvalidStatus
  else
    match validateUser env userID with
    | (_, some e) => .error (.validationFailed e)
    | (false, none) => .error (.userNotFound userID)
    | (true, none) =>
        let matched := st.GetAll.filter
          (fun s => s.userId == userID &&
            (statusFilter == "" || s.status == statusFilter))
        .ok (matched, computeMetadata matched)

/-- One inbound service operation, with its effect oracles (environment,
fresh uuid, random draw, clock) recorded alongside the arguments. -/
inductive Op where
  | create (env : UserEnv) (userID : String) (amount : Rat)
      (newID : String) (randomIndex : Fin 3) (now : Nat)
  | update (env : UserEnv) (saleID newStatus : String) (now : Nat)
  | search (env : UserEnv) (userID statusFilter : String)

/-- Storage after one service operation. -/
def step (st : LocalStorage) : Op → LocalStorage
  | .create env userID amount newID randomIndex now =>
      (CreateSale env st userID amount newID randomIndex now).2
  | .update env saleID newStatus now =>
      (UpdateSaleStatus env st saleID newStatus now).2
  | .search _ _ _ => st

/-- Storage after a sequence of service operations from an empty
repository. -/
def run (ops : List Op) : LocalStorage :=
  ops.foldl step NewLocalStorage

/-- The uuid handed to a `create` is fresh for the storage it runs
against (true of `uuid.NewString` with overwhelming probability, and an
assumption the version counter depends on). -/
def freshOk (st : LocalStorage) : Op → Bool
  | .create _ _ _ newID _ _ => (lookupKey st.m newID).isNone
  | _ => true

def freshIds (st : LocalStorage) : List Op → Bool
  | [] => true
  | op :: ops => freshOk st op && freshIds (step st op) ops

/-- Storage well-formedness: every record is stored under its own id,
ids are non-empty, statuses are among the three enumerated values.
Every storage reachable through the service from empty satisfies it. -/
def WF (st : LocalStorage) : Prop :=
  ∀ p ∈ st.m, p.1 = p.2.id ∧ p.2.id ≠ "" ∧ p.2.status ∈ statuses

/-!
Pointer-accurate repository model. In the Go source `LocalStorage.m` is a
`map[string]*Sale` and `Read` returns the stored pointer itself, so the
service and the repository share one live `Sale` object. The heap is a
list of `Sale` records addressed by position; the store maps each id to
an address.
-/

/-- The `map[string]*Sale` backing store, pointer view: id to address. -/
structure PtrStorage where
  m : List (String × Nat)
deriving DecidableEq

/-- Address lookup in the pointer store. -/
def lookupRef : List (String × Nat) → String → Option Nat
  | [], _ => none
  | (k', r) :: rest, k => if k' = k then some r else lookupRef rest k

/-- `LocalStorage.Read`, pointer view: returns the stored pointer. -/
def PtrStorage.Read (l : PtrStorage) (id : String) : Except SalesError Nat :=
  match lookupRef l.m id with
  | some r => .ok r
  | none => .error .errNotFound

/-- Heap read at an address (default record for a dangling address,
which Go cannot produce). -/
def derefSale (h : List Sale) (r : Nat) : Sale :=
  (h.get? r).getD (Sale.mk "" "" 0 "" 0 0 0)

/-- Heap write at an address. -/
def heapWrite : List Sale → Nat → Sale → List Sale
  | [], _, _ => []
  | _ :: rest, 0, v => v :: rest
  | x :: rest, n + 1, v => x :: heapWrite rest n v

/-- The in-place mutation `UpdateSaleStatus` performs on the record
returned by `Read`, before any `Set` call: `sale.Status = newStatus`,
`sale.UpdatedAt = now`, `sale.Version++`, written through the shared
pointer. -/
def mutateSale (h : List Sale) (r : Nat) (newStatus : String) (now : Nat) :
    List Sale :=
  heapWrite h r
    { derefSale h r with status := newStatus, updatedAt := now,
                         version := (derefSale h r).version + 1 }

/-- Decidable equality of `Except` results, for concrete evaluation. -/
instance {ε α : Type} [DecidableEq ε] [DecidableEq α] :
    DecidableEq (Except ε α) := fun x y =>
  match x, y with
  | .ok a, .ok b =>
      if h : a = b then isTrue (by rw [h]) else isFalse (by simp [h])
  | .error a, .error b =>
      if h : a = b then isTrue (by rw [h]) else isFalse (by simp [h])
  | .ok _, .error _ => isFalse (by simp)
  | .error _, .ok _ => isFalse (by simp)

/-- A user environment in which every user exists. -/
def env200 : UserEnv := fun _ => .success 200

/-- Sample sales mirroring the `TestSearchSale_Success` fixture. -/
def sampleSale1 : Sale := ⟨"s1", "user1", 100, "approved", 0, 0, 1⟩

def sampleSale2 : Sale := ⟨"s2", "user1", 200, "pending", 0, 0, 1⟩

def sampleSale3 : Sale := ⟨"s3", "user2", 50, "rejected", 0, 0, 1⟩

def sampleSale4 : Sale := ⟨"s4", "user1", 150, "approved", 0, 0, 1⟩

def sampleStore : LocalStorage :=
  ⟨[("s1", sampleSale1), ("s2", sampleSale2), ("s3", sampleSale3),
    ("s4", sampleSale4)]⟩
theorem lookupKey_mem {m : List (String × Sale)} {k : String} {v : Sale}
    (h : lookupKey m k = some v) : (k, v) ∈ m := by
  induction m with
  | nil => simp [lookupKey] at h
  | cons p rest ih =>
    obtain ⟨k', v'⟩ := p
    by_cases hk : k' = k
    · subst hk
      simp [lookupKey] at h
      simp [h]
    · simp [lookupKey, hk] at h
      exact List.mem_cons_of_mem _ (ih h)

theorem lookupKey_setKey_self (m : List (String × Sale)) (k : String) (v : Sale) :
    lookupKey (setKey m k v) k = some v := by
  induction m with
  | nil => simp [setKey, lookupKey]
  | cons p rest ih =>
    obtain ⟨k', v'⟩ := p
    by_cases hk : k' = k
    · simp [setKey, hk, lookupKey]
    · simp [setKey, hk, lookupKey, ih]

theorem lookupKey_setKey_ne {k' k : String} (m : List (String × Sale)) (v : Sale)
    (h : k' ≠ k) : lookupKey (setKey m k v) k' = lookupKey m k' := by
  induction m with
  | nil => simp [setKey, lookupKey, Ne.symm h]
  | cons p rest ih =>
    obtain ⟨k₀, v₀⟩ := p
    by_cases hk : k₀ = k
    · subst hk
      simp [setKey, lookupKey, Ne.symm h]
    · simp [setKey, hk, lookupKey, ih]

theorem mem_setKey {p : String × Sale} {m : List (String × Sale)}
    {k : String} {v : Sale} (h : p ∈ setKey m k v) : p = (k, v) ∨ p ∈ m := by
  induction m with
  | nil => simpa [setKey] using h
  | cons q rest ih =>
    obtain ⟨k₀, v₀⟩ := q
    by_cases hk : k₀ = k
    · subst hk
      simp [setKey] at h
      rcases h with h | h
      · exact Or.inl h
      · exact Or.inr (List.mem_cons_of_mem _ h)
    · simp [setKey, hk] at h
      rcases h with h | h
      · exact Or.inr (by simp [h])
      · rcases ih h with h' | h'
        · exact Or.inl h'
        · exact Or.inr (List.mem_cons_of_mem _ h')


theorem Read_ok {l : LocalStorage} {id : String} {s : Sale} :
    l.Read id = .ok s ↔ lookupKey l.m id = some s := by
  unfold LocalStorage.Read
  rcases h : lookupKey l.m id with _ | v <;> simp [h]

theorem CreateSale_error_state {env : UserEnv} {st : LocalStorage}
    {userID : String} {amount : Rat} {newID : String} {randomIndex : Fin 3}
    {now : Nat} {e : SalesError} {st' : LocalStorage}
    (h : CreateSale env st userID amount newID randomIndex now = (.error e, st')) :
    st' = st := by
  unfold CreateSale at h
  split at h
  · exact (Prod.mk.injEq _ _ _ _ ▸ h).2.symm
  · split at h
    · exact (Prod.mk.injEq _ _ _ _ ▸ h).2.symm
    · exact (Prod.mk.injEq _ _ _ _ ▸ h).2.symm
    · simp only [LocalStorage.Set] at h
      split at h
      · exact (Prod.mk.injEq _ _ _ _ ▸ h).2.symm
      · simp at h

theorem CreateSale_ok_state {env : UserEnv} {st : LocalStorage}
    {userID : String} {amount : Rat} {newID : String} {randomIndex : Fin 3}
    {now : Nat} {sale : Sale} {st' : LocalStorage}
    (h : CreateSale env st userID amount newID randomIndex now = (.ok sale, st')) :
    sale = Sale.mk newID userID amount (getRandomStatus randomIndex) now now 1 ∧
    newID ≠ "" ∧ st' = ⟨setKey st.m newID sale⟩ := by
  unfold CreateSale at h
  split at h
  · simp at h
  · split at h
    · simp at h
    · simp at h
    · simp only [LocalStorage.Set] at h
      split at h
      · simp at h
      · rename_i st2 hguard
        split at hguard
        · exact absurd hguard (by simp)
        · rename_i hid
          simp only [Except.ok.injEq] at hguard
          subst hguard
          simp only [Prod.mk.injEq, Except.ok.injEq] at h
          obtain ⟨h1, h2⟩ := h
          subst h1
          exact ⟨rfl, hid, h2.symm⟩

theorem UpdateSaleStatus_error_state {env : UserEnv} {st : LocalStorage}
    {saleID newStatus : String} {now : Nat} {e : SalesError} {st' : LocalStorage}
    (h : UpdateSaleStatus env st saleID newStatus now = (.error e, st')) :
    st' = st := by
  unfold UpdateSaleStatus at h
  split at h
  · exact (Prod.mk.injEq _ _ _ _ ▸ h).2.symm
  · split at h
    · exact (Prod.mk.injEq _ _ _ _ ▸ h).2.symm
    · split at h
      · exact (Prod.mk.injEq _ _ _ _ ▸ h).2.symm
      · simp only [LocalStorage.Set] at h
        split at h
        · exact (Prod.mk.injEq _ _ _ _ ▸ h).2.symm
        · simp at h

theorem UpdateSaleStatus_ok_state {env : UserEnv} {st : LocalStorage}
    {saleID newStatus : String} {now : Nat} {sale' : Sale} {st' : LocalStorage}
    (h : UpdateSaleStatus env st saleID newStatus now = (.ok sale', st')) :
    ∃ sale, lookupKey st.m saleID = some sale ∧
      sale.status = "pending" ∧ (newStatus = "approved" ∨ newStatus = "rejected") ∧
      sale' = { sale with status := newStatus, updatedAt := now,
                          version := sale.version + 1 } ∧
      sale.id ≠ "" ∧ st' = ⟨setKey st.m sale'.id sale'⟩ := by
  unfold UpdateSaleStatus at h
  split at h
  · simp at h
  · rename_i sale hread
    refine ⟨sale, Read_ok.mp hread, ?_⟩
    split at h
    · simp at h
    · rename_i hns
      split at h
      · simp at h
      · rename_i hp
        simp only [LocalStorage.Set] at h
        split at h
        · simp at h
        · rename_i st2 hguard
          split at hguard
          · exact absurd hguard (by simp)
          · rename_i hid
            simp only [Except.ok.injEq] at hguard
            subst hguard
            simp only [Prod.mk.injEq, Except.ok.injEq] at h
            obtain ⟨h1, h2⟩ := h
            subst h1
            refine ⟨not_not.mp hp, ?_, rfl, hid, h2.symm⟩
            by_cases hA : newStatus = "approved"
            · exact Or.inl hA
            · rcases not_and_or.mp hns with hx | hx
              · exact absurd hA (by simpa using hx)
              · exact Or.inr (not_not.mp hx)

theorem getRandomStatus_mem (i : Fin 3) : getRandomStatus i ∈ statuses := by
  fin_cases i <;> decide

theorem count_by_status (l : List Sale) (h : ∀ s ∈ l, s.status ∈ statuses) :
    (l.filter (fun s => s.status == "approved")).length +
      (l.filter (fun s => s.status == "rejected")).length +
      (l.filter (fun s => s.status == "pending")).length = l.length := by
  induction l with
  | nil => simp
  | cons x xs ih =>
    have hx := h x (List.mem_cons_self x xs)
    have ih' := ih (fun s hs => h s (List.mem_cons_of_mem _ hs))
    simp only [statuses, List.mem_cons, List.not_mem_nil, or_false] at hx
    rcases hx with hx | hx | hx <;>
      simp [List.filter_cons, hx] <;> omega

theorem WF_step {st : LocalStorage} (op : Op) (hwf : WF st) : WF (step st op) := by
  cases op with
  | create env userID amount newID randomIndex now =>
    rcases hc : CreateSale env st userID amount newID randomIndex now with ⟨res, st2⟩
    have hstep : step st (.create env userID amount newID randomIndex now) = st2 := by
      simp [step, hc]
    rw [hstep]
    rcases res with e | sale
    · rw [show st2 = st from CreateSale_error_state hc]
      exact hwf
    · obtain ⟨hsale, hid, hst2⟩ := CreateSale_ok_state hc
      subst hst2
      intro p hp
      rcases mem_setKey hp with rfl | hp'
      · subst hsale
        exact ⟨rfl, hid, getRandomStatus_mem randomIndex⟩
      · exact hwf p hp'
  | update env saleID newStatus now =>
    rcases hc : UpdateSaleStatus env st saleID newStatus now with ⟨res, st2⟩
    have hstep : step st (.update env saleID newStatus now) = st2 := by
      simp [step, hc]
    rw [hstep]
    rcases res with e | sale'
    · rw [show st2 = st from UpdateSaleStatus_error_state hc]
      exact hwf
    · obtain ⟨sale, hlook, hp, hns, hsale', hid, hst2⟩ := UpdateSaleStatus_ok_state hc
      subst hst2
      intro p hp'
      rcases mem_setKey hp' with rfl | hp''
      · subst hsale'
        refine ⟨rfl, hid, ?_⟩
        rcases hns with rfl | rfl <;> simp [statuses]
      · exact hwf p hp''
  | search env userID statusFilter =>
    exact hwf

theorem lookup_step_some {st : LocalStorage} (op : Op) {id : String} {s : Sale}
    (hs : lookupKey st.m id = some s) :
    ∃ s', lookupKey (step st op).m id = some s' := by
  cases op with
  | create env userID amount newID randomIndex now =>
    rcases hc : CreateSale env st userID amount newID randomIndex now with ⟨res, st2⟩
    have hstep : step st (.create env userID amount newID randomIndex now) = st2 := by
      simp [step, hc]
    rw [hstep]
    rcases res with e | sale
    · rw [show st2 = st from CreateSale_error_state hc]
      exact ⟨s, hs⟩
    · obtain ⟨hsale, hid, hst2⟩ := CreateSale_ok_state hc
      subst hst2
      by_cases hideq : id = newID
      · subst hideq
        exact ⟨sale, lookupKey_setKey_self _ _ _⟩
      · exact ⟨s, by rw [lookupKey_setKey_ne _ _ hideq]; exact hs⟩
  | update env saleID newStatus now =>
    rcases hc : UpdateSaleStatus env st saleID newStatus now with ⟨res, st2⟩
    have hstep : step st (.update env saleID newStatus now) = st2 := by
      simp [step, hc]
    rw [hstep]
    rcases res with e | sale'
    · rw [show st2 = st from UpdateSaleStatus_error_state hc]
      exact ⟨s, hs⟩
    · obtain ⟨sale, hlook, hp, hns, hsale', hid, hst2⟩ := UpdateSaleStatus_ok_state hc
      subst hst2
      by_cases hideq : id = sale'.id
      · subst hideq
        exact ⟨sale', lookupKey_setKey_self _ _ _⟩
      · exact ⟨s, by rw [lookupKey_setKey_ne _ _ hideq]; exact hs⟩
  | search env userID statusFilter =>
    exact ⟨s, hs⟩

theorem version_mono_step {st : LocalStorage} (op : Op) (hwf : WF st)
    (hfresh : freshOk st op = true) {id : String} {s s' : Sale}
    (hs : lookupKey st.m id = some s)
    (hs' : lookupKey (step st op).m id = some s') :
    s.version ≤ s'.version := by
  cases op with
  | create env userID amount newID randomIndex now =>
    rcases hc : CreateSale env st userID amount newID randomIndex now with ⟨res, st2⟩
    have hstep : step st (.create env userID amount newID randomIndex now) = st2 := by
      simp [step, hc]
    rw [hstep] at hs'
    rcases res with e | sale
    · rw [show st2 = st from CreateSale_error_state hc] at hs'
      rw [hs] at hs'
      cases hs'
      exact le_refl _
    · obtain ⟨hsale, hid, hst2⟩ := CreateSale_ok_state hc
      subst hst2
      by_cases hideq : id = newID
      · subst hideq
        simp only [freshOk] at hfresh
        rw [hs] at hfresh
        simp at hfresh
      · rw [lookupKey_setKey_ne _ _ hideq] at hs'
        rw [hs] at hs'
        cases hs'
        exact le_refl _
  | update env saleID newStatus now =>
    rcases hc : UpdateSaleStatus env st saleID newStatus now with ⟨res, st2⟩
    have hstep : step st (.update env saleID newStatus now) = st2 := by
      simp [step, hc]
    rw [hstep] at hs'
    rcases res with e | sale'
    · rw [show st2 = st from UpdateSaleStatus_error_state hc] at hs'
      rw [hs] at hs'
      cases hs'
      exact le_refl _
    · obtain ⟨sale, hlook, hp, hns, hsale', hid, hst2⟩ := UpdateSaleStatus_ok_state hc
      subst hst2
      have hkey : saleID = sale.id := (hwf _ (lookupKey_mem hlook)).1
      by_cases hideq : id = sale'.id
      · have hsid : sale'.id = sale.id := by rw [hsale']
        subst hideq
        rw [lookupKey_setKey_self] at hs'
        cases hs'
        have hseq : s = sale := by
          rw [hsid, ← hkey] at hs
          rw [hs] at hlook
          cases hlook
          rfl
        rw [hseq, hsale']
        exact Nat.le_succ _
      · rw [lookupKey_setKey_ne _ _ hideq] at hs'
        rw [hs] at hs'
        cases hs'
        exact le_refl _
  | search env userID statusFilter =>
    rw [show step st (.search env userID statusFilter) = st from rfl] at hs'
    rw [hs] at hs'
    cases hs'
    exact le_refl _

theorem WF_foldl {st : LocalStorage} (ops : List Op) (hwf : WF st) :
    WF (ops.foldl step st) := by
  induction ops generalizing st with
  | nil => exact hwf
  | cons op ops ih => exact ih (WF_step op hwf)

theorem freshIds_append {st : LocalStorage} {l1 l2 : List Op}
    (h : freshIds st (l1 ++ l2) = true) :
    freshIds st l1 = true ∧ freshIds (l1.foldl step st) l2 = true := by
  induction l1 generalizing st with
  | nil => simpa [freshIds] using h
  | cons op ops ih =>
    simp only [List.cons_append, freshIds, Bool.and_eq_true] at h
    obtain ⟨h1, h2⟩ := h
    obtain ⟨h3, h4⟩ := ih h2
    exact ⟨by simp [freshIds, h1, h3], h4⟩

theorem version_mono_foldl {st : LocalStorage} (ops : List Op) (hwf : WF st)
    (hfresh : freshIds st ops = true) {id : String} {s s' : Sale}
    (hs : lookupKey st.m id = some s)
    (hs' : lookupKey (ops.foldl step st).m id = some s') :
    s.version ≤ s'.version := by
  induction ops generalizing st s with
  | nil =>
    simp only [List.foldl_nil] at hs'
    rw [hs] at hs'
    cases hs'
    exact le_refl _
  | cons op ops ih =>
    simp only [freshIds, Bool.and_eq_true] at hfresh
    obtain ⟨h1, h2⟩ := hfresh
    obtain ⟨s₁, hs₁⟩ := lookup_step_some op hs
    exact le_trans (version_mono_step op hwf h1 hs hs₁)
      (ih (WF_step op hwf) h2 hs₁ hs')

theorem WF_empty : WF NewLocalStorage := by
  intro p hp
  simp [NewLocalStorage] at hp

theorem heapWrite_get {h : List Sale} {r : Nat} (v : Sale) (hr : r < h.length) :
    (heapWrite h r v).get? r = some v := by
  induction h generalizing r with
  | nil => simp at hr
  | cons x xs ih =>
    cases r with
    | zero => simp [heapWrite]
    | succ n =>
      simp only [heapWrite, List.get?]
      exact ih (by simpa using hr)

/-- Claim C1: for every userId, the user existence check returns
`(true, nil)` exactly when the external user API responds HTTP 200,
returns `(false, nil)` — not an error — exactly when it responds HTTP
404, and returns `(false, non-nil error)` for every other outcome
(network failure or any other status code), so "user absent" and "check
unavailable" are always distinguishable. -/
theorem validateUser_contract (env : UserEnv) (userID : String) :
    (validateUser env userID = (true, none) ↔ env userID = .success 200) ∧
    (validateUser env userID = (false, none) ↔ env userID = .success 404) ∧
    ((env userID ≠ .success 200 ∧ env userID ≠ .success 404) →
      ∃ e, validateUser env userID = (false, some e)) := by
  rcases h : env userID with _ | code
  · simp [validateUser, h]
  · by_cases h200 : code = 200
    · subst h200
      simp [validateUser, h]
    · by_cases h404 : code = 404
      · subst h404
        simp [validateUser, h]
      · simp [validateUser, h, h200, h404]

/-- Witness for C1: on a network failure the check returns `false`
together with an error. -/
theorem validateUser_contract_witness :
    ∃ e, validateUser (fun _ => UserAPIResponse.networkError) "u" =
      (false, some e) :=
  (validateUser_contract (fun _ => .networkError) "u").2.2 ⟨by decide, by decide⟩

/-- Claim C2: for every stored sale and every newStatus string,
`UpdateSaleStatus` succeeds exactly when the sale's current status is
`pending` and `newStatus` is `approved` or `rejected`; a `newStatus`
outside these two values fails with `ErrInvalidStatus`, and a valid
`newStatus` on a non-`pending` sale fails with `ErrInvalidTransition`,
making `approved` and `rejected` terminal. -/
theorem UpdateSaleStatus_transitions (env : UserEnv) (st : LocalStorage)
    (saleID newStatus : String) (now : Nat) (sale : Sale)
    (hread : st.Read saleID = .ok sale) (hid : sale.id ≠ "") :
    ((∃ res st', UpdateSaleStatus env st saleID newStatus now = (.ok res, st')) ↔
      sale.status = "pending" ∧ (newStatus = "approved" ∨ newStatus = "rejected")) ∧
    ((newStatus ≠ "approved" ∧ newStatus ≠ "rejected") →
      UpdateSaleStatus env st saleID newStatus now = (.error .errInvalidStatus, st)) ∧
    ((newStatus = "approved" ∨ newStatus = "rejected") → sale.status ≠ "pending" →
      UpdateSaleStatus env st saleID newStatus now =
        (.error .errInvalidTransition, st)) := by
  simp only [UpdateSaleStatus, hread]
  by_cases hA : newStatus = "approved" <;> by_cases hR : newStatus = "rejected" <;>
    by_cases hp : sale.status = "pending" <;>
      simp [hA, hR, hp, LocalStorage.Set, hid]

/-- Witness for C2: updating a stored `pending` sale to `approved`
succeeds. -/
theorem UpdateSaleStatus_transitions_witness :
    ∃ res st', UpdateSaleStatus env200
      ⟨[("id1", Sale.mk "id1" "u1" 5 "pending" 0 0 1)]⟩ "id1" "approved" 7 =
      (.ok res, st') :=
  ((UpdateSaleStatus_transitions env200
      ⟨[("id1", Sale.mk "id1" "u1" 5 "pending" 0 0 1)]⟩ "id1" "approved" 7
      (Sale.mk "id1" "u1" 5 "pending" 0 0 1) (by decide) (by decide)).1).mpr
    ⟨rfl, Or.inl rfl⟩

/-- Claim C3: every sale returned by a successful `CreateSale` has
`version = 1`, and every successful `UpdateSaleStatus` increments the
sale's version by exactly 1 and sets `updatedAt` to the current instant,
which is later than the previous `updatedAt` whenever the clock has
advanced past it. -/
theorem sale_version_lifecycle :
    (∀ (env : UserEnv) (st : LocalStorage) (userID : String) (amount : Rat)
        (newID : String) (randomIndex : Fin 3) (now : Nat) (sale : Sale)
        (st' : LocalStorage),
      CreateSale env st userID amount newID randomIndex now = (.ok sale, st') →
      sale.version = 1) ∧
    (∀ (env : UserEnv) (st : LocalStorage) (saleID newStatus : String)
        (now : Nat) (sale₀ sale' : Sale) (st' : LocalStorage),
      st.Read saleID = .ok sale₀ → sale₀.updatedAt < now →
      UpdateSaleStatus env st saleID newStatus now = (.ok sale', st') →
      sale'.version = sale₀.version + 1 ∧ sale₀.updatedAt < sale'.updatedAt) := by
  constructor
  · intro env st userID amount newID randomIndex now sale st' h
    unfold CreateSale at h
    split at h
    · simp at h
    · split at h
      · simp at h
      · simp at h
      · simp only [LocalStorage.Set] at h
        split at h
        · simp at h
        · simp only [Prod.mk.injEq, Except.ok.injEq] at h
          obtain ⟨hsale, -⟩ := h
          subst hsale
          rfl
  · intro env st saleID newStatus now sale₀ sale' st' hread hlt h
    simp only [UpdateSaleStatus, hread] at h
    split at h
    · simp at h
    · split at h
      · simp at h
      · split at h
        · simp at h
        · simp only [Prod.mk.injEq, Except.ok.injEq] at h
          obtain ⟨hsale, -⟩ := h
          subst hsale
          exact ⟨rfl, hlt⟩

/-- Witness for C3: a concrete creation yields version 1 and a concrete
update moves version 1 to 2 with a later `updatedAt`. -/
theorem sale_version_lifecycle_witness :
    (Sale.mk "id1" "u1" 5 "pending" 3 3 1).version = 1 ∧
    ((Sale.mk "id1" "u1" 5 "approved" 3 4 2).version =
        (Sale.mk "id1" "u1" 5 "pending" 3 3 1).version + 1 ∧
      (Sale.mk "id1" "u1" 5 "pending" 3 3 1).updatedAt <
        (Sale.mk "id1" "u1" 5 "approved" 3 4 2).updatedAt) := by
  constructor
  · exact sale_version_lifecycle.1 env200 NewLocalStorage "u1" 5 "id1" 0 3
      (Sale.mk "id1" "u1" 5 "pending" 3 3 1)
      ⟨[("id1", Sale.mk "id1" "u1" 5 "pending" 3 3 1)]⟩ (by decide)
  · exact sale_version_lifecycle.2 env200
      ⟨[("id1", Sale.mk "id1" "u1" 5 "pending" 3 3 1)]⟩ "id1" "approved" 4
      (Sale.mk "id1" "u1" 5 "pending" 3 3 1) (Sale.mk "id1" "u1" 5 "approved" 3 4 2)
      ⟨[("id1", Sale.mk "id1" "u1" 5 "approved" 3 4 2)]⟩
      (by decide) (by decide) (by decide)

/-- Claim C4: for every userId and every amount below or equal to zero,
`CreateSale` fails with the invalid-amount error and writes nothing: the
repository state after the call equals the state before it. -/
theorem CreateSale_rejects_nonpositive (env : UserEnv) (st : LocalStorage)
    (userID : String) (amount : Rat) (newID : String) (randomIndex : Fin 3)
    (now : Nat) (h : amount ≤ 0) :
    CreateSale env st userID amount newID randomIndex now =
      (.error .invalidAmount, st) := by
  simp [CreateSale, h]

/-- Witness for C4: creating a sale with amount 0 fails and leaves the
empty repository empty. -/
theorem CreateSale_rejects_nonpositive_witness :
    (0 : Rat) ≤ 0 ∧
    CreateSale env200 NewLocalStorage "u1" 0 "id1" 0 5 =
      (.error .invalidAmount, NewLocalStorage) :=
  ⟨le_refl 0,
    CreateSale_rejects_nonpositive env200 NewLocalStorage "u1" 0 "id1" 0 5
      (le_refl 0)⟩

/-- Claim C5 (SearchSale modelled from the spec): every successful
`SearchSale` returns an aggregation with `quantity` equal to the number
of returned results, per-status counts summing to `quantity` (given that
the stored statuses are among the three enumerated values, which holds
in every reachable state), and `totalAmount` equal to the sum of the
returned amounts, all over the matched set only; and an empty matched
set for an existing user is a success with the all-zero aggregation,
not an error. -/
theorem SearchSale_aggregation (env : UserEnv) (st : LocalStorage)
    (userID statusFilter : String)
    (hvalid : ∀ s ∈ st.GetAll, s.status ∈ statuses) :
    (∀ results meta,
      SearchSale env st userID statusFilter = .ok (results, meta) →
      meta.quantity = results.length ∧
      meta.approved + meta.rejected + meta.pending = meta.quantity ∧
      meta.totalAmount = (results.map (·.amount)).sum) ∧
    ((statusFilter = "" ∨ statusFilter ∈ statuses) →
      env userID = .success 200 →
      st.GetAll.filter (fun s => s.userId == userID &&
        (statusFilter == "" || s.status == statusFilter)) = [] →
      SearchSale env st userID statusFilter = .ok ([], ⟨0, 0, 0, 0, 0⟩)) := by
  constructor
  · intro results meta h
    unfold SearchSale at h
    split at h
    · simp at h
    · split at h
      · simp at h
      · simp at h
      · simp only [Except.ok.injEq, Prod.mk.injEq] at h
        obtain ⟨hres, hmeta⟩ := h
        subst hres
        subst hmeta
        refine ⟨rfl, ?_, rfl⟩
        have hmem : ∀ s ∈ st.GetAll.filter (fun s => s.userId == userID &&
            (statusFilter == "" || s.status == statusFilter)),
            s.status ∈ statuses :=
          fun s hs => hvalid s (List.mem_of_mem_filter hs)
        exact count_by_status _ hmem
  · intro hf henv hempty
    have hguard : ¬(statusFilter ≠ "" ∧ statusFilter ∉ statuses) := by tauto
    simp [SearchSale, hguard, validateUser, henv, hempty, computeMetadata]

/-- Witness for C5: on the test fixture (three sales of user1 totalling
450, one of user2), searching user1 without filter yields the
aggregation 3 results / 2 approved / 0 rejected / 1 pending / total
450, which satisfies all three equations. -/
theorem SearchSale_aggregation_witness :
    (SalesMetadata.mk 3 2 0 1 450).quantity =
        [sampleSale1, sampleSale2, sampleSale4].length ∧
    (SalesMetadata.mk 3 2 0 1 450).approved +
        (SalesMetadata.mk 3 2 0 1 450).rejected +
        (SalesMetadata.mk 3 2 0 1 450).pending =
      (SalesMetadata.mk 3 2 0 1 450).quantity ∧
    (SalesMetadata.mk 3 2 0 1 450).totalAmount =
        ([sampleSale1, sampleSale2, sampleSale4].map (·.amount)).sum :=
  (SearchSale_aggregation env200 sampleStore "user1" "" (by decide)).1
    [sampleSale1, sampleSale2, sampleSale4] (SalesMetadata.mk 3 2 0 1 450) (by
      simp [SearchSale, validateUser, env200, sampleStore, LocalStorage.GetAll,
        sampleSale1, sampleSale2, sampleSale3, sampleSale4, computeMetadata]
      norm_num)

/-- Claim C6: for every existing user and positive amount, `CreateSale`
returns a sale whose id is the freshly generated (non-empty) uuid, whose
`userId` and `amount` equal the arguments, whose status is
`statuses[randomIndex]` — one of the three values, each attainable by
some draw, so the initial status is not fixed to `pending` — and whose
version is 1; and that exact record is stored under its id. -/
theorem CreateSale_success_shape (env : UserEnv) (st : LocalStorage)
    (userID : String) (amount : Rat) (newID : String) (randomIndex : Fin 3)
    (now : Nat) (hamt : 0 < amount) (henv : env userID = .success 200)
    (hid : newID ≠ "") :
    ∃ st' : LocalStorage,
      CreateSale env st userID amount newID randomIndex now =
        (.ok (Sale.mk newID userID amount (getRandomStatus randomIndex) now now 1),
          st') ∧
      st'.Read newID =
        .ok (Sale.mk newID userID amount (getRandomStatus randomIndex) now now 1) ∧
      getRandomStatus randomIndex ∈ statuses ∧
      (∀ s ∈ statuses, ∃ j : Fin 3, getRandomStatus j = s) := by
  have hamt' : ¬ amount ≤ 0 := not_le.mpr hamt
  refine ⟨⟨setKey st.m newID
      (Sale.mk newID userID amount (getRandomStatus randomIndex) now now 1)⟩,
    ?_, ?_, ?_, ?_⟩
  · simp [CreateSale, hamt', validateUser, henv, LocalStorage.Set, hid]
  · simp [LocalStorage.Read, lookupKey_setKey_self]
  · exact getRandomStatus_mem randomIndex
  · decide

/-- Witness for C6: creating a sale for an existing user with amount
150.75 and draw index 1 stores and returns the expected record. -/
theorem CreateSale_success_shape_witness :
    ∃ st' : LocalStorage,
      CreateSale env200 NewLocalStorage "u1" (150.75 : Rat) "id1" 1 9 =
        (.ok (Sale.mk "id1" "u1" (150.75 : Rat) (getRandomStatus 1) 9 9 1), st') ∧
      st'.Read "id1" =
        .ok (Sale.mk "id1" "u1" (150.75 : Rat) (getRandomStatus 1) 9 9 1) ∧
      getRandomStatus 1 ∈ statuses ∧
      (∀ s ∈ statuses, ∃ j : Fin 3, getRandomStatus j = s) :=
  CreateSale_success_shape env200 NewLocalStorage "u1" (150.75 : Rat) "id1" 1 9
    (by norm_num) rfl (by decide)

/-- Claim C7: after any sequence of service operations starting from an
empty repository (with fresh uuids for creations), every stored record
has a non-empty id and a status among the three enumerated values, and
per id the version never decreases across the sequence. -/
theorem service_trace_invariants (ops more : List Op) (id : String) (s s' : Sale)
    (hfresh : freshIds NewLocalStorage (ops ++ more) = true) :
    (∀ p ∈ (run ops).m, p.2.id ≠ "" ∧ p.2.status ∈ statuses) ∧
    ((run ops).Read id = .ok s → (run (ops ++ more)).Read id = .ok s' →
      s.version ≤ s'.version) := by
  have hwf : WF (run ops) := WF_foldl ops WF_empty
  constructor
  · intro p hp
    exact ⟨(hwf p hp).2.1, (hwf p hp).2.2⟩
  · intro h1 h2
    rw [Read_ok] at h1 h2
    rw [show run (ops ++ more) = more.foldl step (run ops) from
      List.foldl_append ..] at h2
    exact version_mono_foldl more hwf (freshIds_append hfresh).2 h1 h2

/-- Witness for C7: one creation followed by one status update keeps the
invariants, and the version grows from 1 to 2. -/
theorem service_trace_invariants_witness :
    (∀ p ∈ (run [Op.create env200 "u1" 5 "id1" 0 0]).m,
        p.2.id ≠ "" ∧ p.2.status ∈ statuses) ∧
      (Sale.mk "id1" "u1" 5 "pending" 0 0 1).version ≤
        (Sale.mk "id1" "u1" 5 "approved" 0 1 2).version := by
  have h := service_trace_invariants [Op.create env200 "u1" 5 "id1" 0 0]
    [Op.update env200 "id1" "approved" 1] "id1"
    (Sale.mk "id1" "u1" 5 "pending" 0 0 1) (Sale.mk "id1" "u1" 5 "approved" 0 1 2)
    (by decide)
  exact ⟨h.1, h.2 (by decide) (by decide)⟩

/-- Claim C8: on well-formed (reachable) repository states, every
operation either fully commits its write or performs none — whenever
`CreateSale` or `UpdateSaleStatus` returns an error the repository state
equals the state before the call, and `SearchSale` never writes. -/
theorem service_ops_atomic (st : LocalStorage) (hwf : WF st) :
    (∀ (env : UserEnv) (userID : String) (amount : Rat) (newID : String)
        (randomIndex : Fin 3) (now : Nat) (e : SalesError) (st' : LocalStorage),
      CreateSale env st userID amount newID randomIndex now = (.error e, st') →
      st' = st) ∧
    (∀ (env : UserEnv) (saleID newStatus : String) (now : Nat)
        (e : SalesError) (st' : LocalStorage),
      UpdateSaleStatus env st saleID newStatus now = (.error e, st') →
      st' = st) ∧
    (∀ (env : UserEnv) (userID statusFilter : String),
      step st (.search env userID statusFilter) = st) := by
  refine ⟨?_, ?_, ?_⟩
  · intro env userID amount newID randomIndex now e st' h
    exact CreateSale_error_state h
  · intro env saleID newStatus now e st' h
    exact UpdateSaleStatus_error_state h
  · intro env userID statusFilter
    rfl

/-- Witness for C8: a rejected transition (updating an already approved
sale) leaves the one-sale repository exactly as it was. -/
theorem service_ops_atomic_witness :
    LocalStorage.mk [("id1", Sale.mk "id1" "u1" 5 "approved" 0 0 1)] =
      LocalStorage.mk [("id1", Sale.mk "id1" "u1" 5 "approved" 0 0 1)] :=
  (service_ops_atomic (LocalStorage.mk [("id1", Sale.mk "id1" "u1" 5 "approved" 0 0 1)])
      (by unfold WF; decide)).2.1 env200 "id1" "rejected" 7 .errInvalidTransition
    (LocalStorage.mk [("id1", Sale.mk "id1" "u1" 5 "approved" 0 0 1)]) (by decide)

/-- Claim C9, counterexample: the repository hands out the stored
pointer itself, so the in-place mutation `UpdateSaleStatus` performs on
a record obtained via `Read` is visible to a second `Read` of the same
id before any `Set`: with one `pending` sale stored at address 0,
`Read` returns address 0, and after the service's mutation (no `Set`
performed) dereferencing that address yields status `approved`, a
record different from the stored one — refuting that the retrieved
record is a disposable working copy. -/
theorem repository_alias_counterexample :
    PtrStorage.Read ⟨[("s1", 0)]⟩ "s1" = .ok 0 ∧
    (derefSale [Sale.mk "s1" "u1" 100 "pending" 0 0 1] 0).status = "pending" ∧
    (derefSale (mutateSale [Sale.mk "s1" "u1" 100 "pending" 0 0 1] 0 "approved" 5)
        0).status = "approved" ∧
    derefSale (mutateSale [Sale.mk "s1" "u1" 100 "pending" 0 0 1] 0 "approved" 5) 0 ≠
      derefSale [Sale.mk "s1" "u1" 100 "pending" 0 0 1] 0 := by
  decide

/-- Claim C9 as amended: a record retrieved from the repository is a
shared live reference, not a disposable working copy — the mutation the
lifecycle service makes to a record obtained via `Read` is immediately
visible in the stored state even before any `Set`: a second `Read`
returns the same address, and dereferencing it yields exactly the
mutated record. -/
theorem repository_alias (st : PtrStorage) (h : List Sale) (id newStatus : String)
    (now : Nat) (r : Nat) (hread : st.Read id = .ok r) (hr : r < h.length) :
    st.Read id = .ok r ∧
    derefSale (mutateSale h r newStatus now) r =
      { derefSale h r with status := newStatus, updatedAt := now,
                           version := (derefSale h r).version + 1 } := by
  refine ⟨hread, ?_⟩
  unfold mutateSale derefSale
  rw [heapWrite_get _ hr]
  rfl

/-- Witness for the amended C9 at the concrete one-sale store. -/
theorem repository_alias_witness :
    PtrStorage.Read ⟨[("s1", 0)]⟩ "s1" = .ok 0 ∧
    derefSale (mutateSale [Sale.mk "s1" "u1" 100 "pending" 0 0 1] 0 "approved" 5) 0 =
      { derefSale [Sale.mk "s1" "u1" 100 "pending" 0 0 1] 0 with
          status := "approved", updatedAt := 5,
          version := (derefSale [Sale.mk "s1" "u1" 100 "pending" 0 0 1] 0).version + 1 } :=
  repository_alias ⟨[("s1", 0)]⟩ [Sale.mk "s1" "u1" 100 "pending" 0 0 1] "s1"
    "approved" 5 0 (by decide) (by decide)

/-- Claim C10: `UpdateSaleStatus` never invokes the user existence
check — for any two behaviours of the external user system (including
unavailability) its result, on every storage and input, is identical:
the outcome depends only on the stored sale and `newStatus`. -/
theorem UpdateSaleStatus_ignores_user_api (env₁ env₂ : UserEnv)
    (st : LocalStorage) (saleID newStatus : String) (now : Nat) :
    UpdateSaleStatus env₁ st saleID newStatus now =
      UpdateSaleStatus env₂ st saleID newStatus now := rfl
